import Mathlib

/-!
Shallow embedding of the admin content-editing frontend of the
aaroncolemanmusic CMS: the new-page form state container
(`src/frontend/src/app/admin/pages/new/page.tsx`), the pages list view
(`src/frontend/src/app/admin/pages/page.tsx`), the dashboard stats loader
(`src/frontend/src/app/admin/page.tsx`) and the image-upload control
(`src/unnamed/part_001`, component `ImageUpload`).

Strings are modelled as Lean `String`s (lists of characters); JavaScript
string operations used by the code are embedded explicitly below, with
JavaScript semantics (in particular, `String.prototype.trim` ignores any
argument and strips only whitespace).
-/

namespace CMS

/-- The character class of the JavaScript regex `\s` (whitespace). -/
def isJsSpaceChar (c : Char) : Bool :=
  c == ' ' || c == '\t' || c == '\n' || c == '\x0b' || c == '\x0c' ||
  c == '\r' || c == '\u00a0' || c == '\u1680' ||
  ('\u2000' ≤ c && c ≤ '\u200a') ||
  c == '\u2028' || c == '\u2029' || c == '\u202f' || c == '\u205f' ||
  c == '\u3000' || c == '\ufeff'

/-- `'a'`–`'z'`. -/
def isAsciiLower (c : Char) : Bool := 'a' ≤ c && c ≤ 'z'

/-- `'0'`–`'9'`. -/
def isAsciiDigit (c : Char) : Bool := '0' ≤ c && c ≤ '9'

/-- The character class `[a-z0-9\s-]` kept by the regex replacement
`.replace(/[^a-z0-9\s-]/g, '')` (it runs after `toLowerCase`, so the
upper-case range is irrelevant). -/
def keepSlugChar (c : Char) : Bool :=
  isAsciiLower c || isAsciiDigit c || isJsSpaceChar c || c == '-'

/-- JavaScript `toLowerCase` restricted to the ASCII range (the only
case mapping that matters for the slug pipeline, whose later stages keep
only ASCII characters). -/
def jsToLower (c : Char) : Char :=
  if 'A' ≤ c && c ≤ 'Z' then Char.ofNat (c.toNat + 32) else c

/-- Regex replacement of every maximal run of `p`-characters by the single
character `rep` (the global replacements of the patterns `\s+` and `-+`
by `'-'`). The flag records whether the previous character was in a run. -/
def replRuns (p : Char → Bool) (rep : Char) : Bool → List Char → List Char
  | _, [] => []
  | inRun, c :: cs =>
    if p c then
      if inRun then replRuns p rep true cs
      else rep :: replRuns p rep true cs
    else c :: replRuns p rep false cs

/-- JavaScript `String.prototype.trim`: strips whitespace from both ends.
The source calls `.trim('-')`, but `trim` takes no parameters in
JavaScript, so the argument is ignored and only whitespace is stripped. -/
def jsTrimChars (l : List Char) : List Char :=
  ((l.dropWhile isJsSpaceChar).reverse.dropWhile isJsSpaceChar).reverse

/-- The slug derivation of `handleInputChange`: lower-case, delete the
characters outside `[a-z0-9\s-]`, replace each `\s+` run by `'-'`,
collapse each `-+` run to `'-'`, then `.trim('-')` (which, being
JavaScript `trim`, strips whitespace only). -/
def slugify (s : String) : String :=
  let l0 := s.data.map jsToLower
  let l1 := l0.filter keepSlugChar
  let l2 := replRuns isJsSpaceChar '-' false l1
  let l3 := replRuns (fun c => c == '-') '-' false l2
  ⟨jsTrimChars l3⟩

/-- The draft record held by the new-page form (`useState` initial value). -/
structure FormData where
  title : String
  slug : String
  status : String
  content : String
  excerpt : String
  section_id : String
  template_name : String
  requires_auth : Bool
  featured_image : String
  meta_title : String
  meta_description : String
  canonical_url : String
  robots_txt : String
  og_title : String
  og_description : String
deriving DecidableEq, Repr

/-- The seeded defaults of the new-page form. -/
def initialFormData : FormData :=
  { title := "", slug := "", status := "draft", content := "", excerpt := ""
    section_id := "", template_name := "default", requires_auth := false
    featured_image := "", meta_title := "", meta_description := ""
    canonical_url := "", robots_txt := "index, follow", og_title := ""
    og_description := "" }

/-- The `name` attribute of a text-valued input wired to
`handleInputChange` (the `requires_auth` checkbox is handled separately
through its `checked` value). -/
inductive Field where
  | title | slug | status | excerpt | section_id | template_name
  | meta_title | meta_description | canonical_url | og_title
  | og_description | robots_txt
deriving DecidableEq, Repr

/-- The computed-key spread `{ ...prev, [name]: value }`. -/
def setField (fd : FormData) : Field → String → FormData
  | .title, v => { fd with title := v }
  | .slug, v => { fd with slug := v }
  | .status, v => { fd with status := v }
  | .excerpt, v => { fd with excerpt := v }
  | .section_id, v => { fd with section_id := v }
  | .template_name, v => { fd with template_name := v }
  | .meta_title, v => { fd with meta_title := v }
  | .meta_description, v => { fd with meta_description := v }
  | .canonical_url, v => { fd with canonical_url := v }
  | .og_title, v => { fd with og_title := v }
  | .og_description, v => { fd with og_description := v }
  | .robots_txt, v => { fd with robots_txt := v }

/-- One change event delivered to `handleInputChange`: a text-valued input
or the `requires_auth` checkbox. -/
inductive FormInput where
  | text (f : Field) (v : String)
  | checkbox (b : Bool)
deriving DecidableEq, Repr

/-- `handleInputChange`: applies the spread update, then — when the event
targets the title — auto-derives the slug if the slug was empty in the
render-time snapshot `fd`, and mirrors the title into the meta title if the
meta title was empty in that snapshot. The guards read the stale closure
`formData`, i.e. the state before this event. -/
def handleInputChange (fd : FormData) : FormInput → FormData
  | .checkbox b => { fd with requires_auth := b }
  | .text f v =>
    let fd1 := setField fd f v
    let fd2 :=
      if f = Field.title ∧ fd.slug = "" then { fd1 with slug := slugify v }
      else fd1
    if f = Field.title ∧ fd.meta_title = "" then { fd2 with meta_title := v }
    else fd2

/-- An editing session: the events applied in order to the seeded draft. -/
def runSession (inputs : List FormInput) : FormData :=
  inputs.foldl handleInputChange initialFormData

/-- A slug character admitted by the spec: lowercase letter, digit, hyphen. -/
def slugChar (c : Char) : Bool := isAsciiLower c || isAsciiDigit c || c == '-'

/-- No two adjacent characters of the list both satisfy `p`. -/
def noRunB (p : Char → Bool) : List Char → Bool
  | a :: b :: t => !(p a && p b) && noRunB p (b :: t)
  | _ => true

/-- The well-formedness predicate the spec asserts of every derived slug:
only lowercase letters, digits and hyphens; no leading or trailing hyphen;
no run of two or more hyphens. -/
def claimSlugOk (s : String) : Bool :=
  s.data.all slugChar &&
  !(s.data.head?.any fun c => c == '-') &&
  !(s.data.getLast?.any fun c => c == '-') &&
  noRunB (fun c => c == '-') s.data

/-! ## Backend responses and the dashboard stats loader -/

/-- The body of a settled read response as described by the wire contract:
either a paginated envelope carrying a nested `results` list, a bare list
of records, or some other (non-null, non-list) value without `results`. -/
inductive ApiData (α : Type) where
  | envelope (results : List α)
  | bare (items : List α)
  | other
deriving DecidableEq, Repr

/-- The JavaScript optional chain `data.results?.length`: a number when
`results` is present, `undefined` otherwise. -/
def resultsLen? : ApiData α → Option Nat
  | .envelope rs => some rs.length
  | _ => none

/-- The JavaScript property read `data.length`: a number when the body is
a bare list (arrays carry `length`), `undefined` otherwise. -/
def dataLen? : ApiData α → Option Nat
  | .bare items => some items.length
  | _ => none

/-- The count expression of `loadDashboardData`:
`res.data.results?.length || res.data.length || 0`, with JavaScript
falsiness (`undefined` and `0` are falsy). -/
def statCount (d : ApiData α) : Nat :=
  match resultsLen? d with
  | some n => if n ≠ 0 then n else (dataLen? d).getD 0
  | none =>
    match dataLen? d with
    | some m => if m ≠ 0 then m else 0
    | none => 0

/-- An error carried by a rejected request
(`error.response?.data?.message` may be absent). -/
structure ApiError where
  message : Option String
deriving DecidableEq, Repr

/-- The dashboard stats record (`useState` initial value: all zero). -/
structure DashboardStats where
  pages : Nat
  blogPosts : Nat
  sections : Nat
  contentBlocks : Nat
deriving DecidableEq, Repr

/-- The seeded dashboard stats. -/
def initialStats : DashboardStats :=
  { pages := 0, blogPosts := 0, sections := 0, contentBlocks := 0 }

/-- `loadDashboardData`: the four stat fetches are joined by
`Promise.all`, which rejects as soon as any input rejects; the single
`catch` then logs and leaves the stats at their seeded value. Only when
all four resolve does `setStats` run. Returns the resulting stats and
whether the failure branch logged. -/
def loadDashboardData (p b s c : Except ApiError (ApiData α)) :
    DashboardStats × Bool :=
  match p, b, s, c with
  | .ok dp, .ok db, .ok ds, .ok dc =>
    ({ pages := statCount dp, blogPosts := statCount db
       sections := statCount ds, contentBlocks := statCount dc }, false)
  | _, _, _, _ => (initialStats, true)

/-! ## Pages list view -/

/-- A page record, restricted to the fields the list view reads. -/
structure Page where
  id : Nat
  section_id : Nat
  title : String
deriving DecidableEq, Repr

/-- Outcome of `handleDeletePage`: the pages state afterwards, whether the
delete request was sent, whether a refetch was issued (the handler never
refetches), and whether the failure branch logged. -/
structure DeleteResult where
  pages : List Page
  deleteSent : Bool
  refetched : Bool
  logged : Bool
deriving DecidableEq, Repr

/-- `handleDeletePage`: returns early unless the user confirms; on backend
acceptance filters the deleted id out of local state; on rejection logs
and leaves the state as it was. No path refetches. -/
def handleDeletePage (confirmed : Bool) (backend : Except ApiError Unit)
    (pages : List Page) (id : Nat) : DeleteResult :=
  if ¬ confirmed then
    { pages := pages, deleteSent := false, refetched := false, logged := false }
  else
    match backend with
    | .ok _ =>
      { pages := pages.filter (fun page => page.id ≠ id)
        deleteSent := true, refetched := false, logged := false }
    | .error _ =>
      { pages := pages, deleteSent := true, refetched := false, logged := true }

/-- `filteredPages`: `selectedSection === 'all' ? pages :
pages.filter(page => page.section_id.toString() === selectedSection)`. -/
def filteredPages (selectedSection : String) (pages : List Page) : List Page :=
  if selectedSection = "all" then pages
  else pages.filter (fun page => toString page.section_id = selectedSection)

/-- What the pages grid renders: the explicit empty state (with its
message) when `filteredPages.length === 0`, else the grid of cards. -/
inductive PagesView where
  | emptyState (message : String)
  | grid (pages : List Page)
deriving DecidableEq, Repr

/-- The render decision of `PagesManagement` (after loading), plus the
number of network requests it issues while filtering — always zero: the
filter is computed from the already-fetched `pages` state. -/
def renderPages (selectedSection : String) (pages : List Page) :
    PagesView × Nat :=
  let fp := filteredPages selectedSection pages
  if fp.length = 0 then
    (.emptyState (if selectedSection = "all" then
        "Get started by creating your first page."
      else "No pages found in this section."), 0)
  else (.grid fp, 0)

/-! ## Image upload control -/

/-- A selected file as the control reads it: `name`, `size`, `type`. -/
structure UFile where
  name : String
  size : Nat
  type : String
deriving DecidableEq, Repr

/-- The backend descriptor returned by a successful media upload; the
control consumes its stored-file locator `file` and forwards the whole
descriptor. -/
structure MediaData where
  file : String
  url : String
deriving DecidableEq, Repr

/-- The local state of the `ImageUpload` component
(`uploading`, `preview`, `error`). -/
structure UploadState where
  uploading : Bool
  preview : Option String
  error : Option String
deriving DecidableEq, Repr

/-- Outcome of one `onDrop` invocation: final component state, number of
upload requests issued, object URLs created and revoked during the
attempt, what was emitted to the parent via `onUpload`, and whether
`setUploading(true)` ran. -/
structure DropResult where
  state : UploadState
  requests : Nat
  created : List String
  revoked : List String
  emitted : Option (String × Option MediaData)
  enteredUploading : Bool
deriving DecidableEq, Repr

/-- `Math.round(maxSize / 1024 / 1024)` for a natural byte count. -/
def roundMB (maxSize : Nat) : Nat := (2 * maxSize + 1048576) / 2097152

/-- The inline size-rejection message. -/
def sizeErrorMsg (maxSize : Nat) : String :=
  "File size must be less than " ++ toString (roundMB maxSize) ++ "MB"

/-- Character-list test that `s` starts with `pre` (JavaScript
`String.prototype.startsWith`). -/
def startsWithCh : List Char → List Char → Bool
  | _, [] => true
  | [], _ :: _ => false
  | c :: cs, p :: ps => c == p && startsWithCh cs ps

/-- `onDrop` of `ImageUpload`. Parameters beyond the source arguments
model the environment of the attempt: `previewUrl` is the fresh object URL
`URL.createObjectURL(file)` would mint, and `backend` is how
`api.uploadMedia` settles. Oversized or non-image files return before any
effect; otherwise the attempt enters the uploading state, creates the
preview URL, issues the request, and on success emits
`onUpload(imageData.file, imageData)` and revokes the preview URL, while
on failure it sets the (server or fallback) message, reverts the preview
to `currentImage || null`, and — revoking only on the success path —
leaves the created URL unreleased. -/
def onDrop (maxSize : Nat) (currentImage : Option String)
    (s : UploadState) (acceptedFiles : List UFile) (previewUrl : String)
    (backend : Except ApiError MediaData) : DropResult :=
  match acceptedFiles.head? with
  | none =>
    { state := s, requests := 0, created := [], revoked := []
      emitted := none, enteredUploading := false }
  | some file =>
    if file.size > maxSize then
      { state := { s with error := some (sizeErrorMsg maxSize) }
        requests := 0, created := [], revoked := []
        emitted := none, enteredUploading := false }
    else if ¬ startsWithCh file.type.data "image/".data then
      { state := { s with error := some "Please upload an image file" }
        requests := 0, created := [], revoked := []
        emitted := none, enteredUploading := false }
    else
      match backend with
      | .ok imageData =>
        { state := { uploading := false, preview := some previewUrl
                     error := none }
          requests := 1, created := [previewUrl], revoked := [previewUrl]
          emitted := some (imageData.file, some imageData)
          enteredUploading := true }
      | .error e =>
        { state := { uploading := false, preview := currentImage
                     error := some (e.message.getD
                       "Upload failed. Please try again.") }
          requests := 1, created := [previewUrl], revoked := []
          emitted := none, enteredUploading := true }

/-! ## Properties of the slug pipeline -/

/-- Unfolding of `slugify` down to the character-list pipeline. -/
theorem slugify_data (s : String) : (slugify s).data =
    jsTrimChars (replRuns (fun c => c == '-') '-' false
      (replRuns isJsSpaceChar '-' false
        ((s.data.map jsToLower).filter keepSlugChar))) := rfl

/-- Every character of a `replRuns` output is the replacement character or
a non-`p` character of the input. -/
theorem mem_replRuns {p : Char → Bool} {rep : Char} :
    ∀ (l : List Char) {b : Bool} {c : Char}, c ∈ replRuns p rep b l →
      c = rep ∨ (c ∈ l ∧ p c = false) := by
  intro l
  induction l with
  | nil => intro b c h; simp [replRuns] at h
  | cons d cs ih =>
    intro b c h
    by_cases hd : p d = true
    · cases b with
      | true =>
        simp only [replRuns, hd, if_true] at h
        rcases ih h with h' | ⟨hm, hp⟩
        · exact Or.inl h'
        · exact Or.inr ⟨List.mem_cons_of_mem _ hm, hp⟩
      | false =>
        simp only [replRuns, hd, if_true, Bool.false_eq_true, if_false,
          List.mem_cons] at h
        rcases h with rfl | h
        · exact Or.inl rfl
        · rcases ih h with h' | ⟨hm, hp⟩
          · exact Or.inl h'
          · exact Or.inr ⟨List.mem_cons_of_mem _ hm, hp⟩
    · have hd' : p d = false := by simpa using hd
      simp only [replRuns, hd', Bool.false_eq_true, if_false,
        List.mem_cons] at h
      rcases h with rfl | h
      · exact Or.inr ⟨List.mem_cons_self _ _, hd'⟩
      · rcases ih h with h' | ⟨hm, hp⟩
        · exact Or.inl h'
        · exact Or.inr ⟨List.mem_cons_of_mem _ hm, hp⟩

/-- `replRuns` is the identity on lists without `p`-characters. -/
theorem replRuns_eq_self {p : Char → Bool} {rep : Char} :
    ∀ (l : List Char) (b : Bool), (∀ c ∈ l, p c = false) →
      replRuns p rep b l = l := by
  intro l
  induction l with
  | nil => intro b _; rfl
  | cons d cs ih =>
    intro b h
    have hd : p d = false := h d (List.mem_cons_self _ _)
    simp only [replRuns, hd, Bool.false_eq_true, if_false]
    rw [ih false (fun c hc => h c (List.mem_cons_of_mem _ hc))]

/-- In the running-state, the head of a `replRuns` output never satisfies
`p`. -/
theorem replRuns_true_head {p : Char → Bool} {rep : Char} :
    ∀ (l : List Char) {c : Char},
      (replRuns p rep true l).head? = some c → p c = false := by
  intro l
  induction l with
  | nil => intro c h; simp [replRuns] at h
  | cons d cs ih =>
    intro c h
    by_cases hd : p d = true
    · simp only [replRuns, hd, if_true] at h
      exact ih h
    · have hd' : p d = false := by simpa using hd
      simp only [replRuns, hd', Bool.false_eq_true, if_false,
        List.head?_cons, Option.some.injEq] at h
      rw [← h]
      exact hd'

/-- The tail of a run-free list is run-free. -/
theorem noRunB_tail {p : Char → Bool} {a : Char} {l : List Char}
    (h : noRunB p (a :: l) = true) : noRunB p l = true := by
  cases l with
  | nil => rfl
  | cons x xs =>
    simp only [noRunB, Bool.and_eq_true] at h
    exact h.2

/-- Building a run-free list by consing a safe head. -/
theorem noRunB_cons_of {p : Char → Bool} {a : Char} {l : List Char}
    (htail : noRunB p l = true)
    (hhead : ∀ x, l.head? = some x → (p a && p x) = false) :
    noRunB p (a :: l) = true := by
  cases l with
  | nil => rfl
  | cons x xs =>
    simp only [noRunB, Bool.and_eq_true]
    refine ⟨?_, htail⟩
    have := hhead x rfl
    simp [this]

/-- The output of `replRuns` never contains two adjacent `p`-characters:
a replacement is always followed by a non-`p` character or the end. -/
theorem noRunB_replRuns {p : Char → Bool} {rep : Char} :
    ∀ (l : List Char) (b : Bool), noRunB p (replRuns p rep b l) = true := by
  intro l
  induction l with
  | nil => intro b; rfl
  | cons d cs ih =>
    intro b
    by_cases hd : p d = true
    · cases b with
      | true =>
        simp only [replRuns, hd, if_true]
        exact ih true
      | false =>
        simp only [replRuns, hd, if_true, Bool.false_eq_true, if_false]
        refine noRunB_cons_of (ih true) ?_
        intro x hx
        have hpx := replRuns_true_head cs hx
        simp [hpx]
    · have hd' : p d = false := by simpa using hd
      simp only [replRuns, hd', Bool.false_eq_true, if_false]
      refine noRunB_cons_of (ih false) ?_
      intro x _
      simp [hd']

/-- On a run-free list whose `p`-characters can only be the replacement
character itself, `replRuns` is the identity. -/
theorem replRuns_id_of_noRun {p : Char → Bool} {rep : Char}
    (hp : ∀ c, p c = true → c = rep) :
    ∀ (l : List Char), noRunB p l = true → replRuns p rep false l = l := by
  intro l
  induction l with
  | nil => intro _; rfl
  | cons d cs ih =>
    intro h
    by_cases hd : p d = true
    · have hdr : d = rep := hp d hd
      simp only [replRuns, hd, if_true, Bool.false_eq_true, if_false]
      cases cs with
      | nil => simp [replRuns, hdr]
      | cons e es =>
        have he : p e = false := by
          simp only [noRunB, Bool.and_eq_true] at h
          have h1 := h.1
          simp only [hd, Bool.true_and, Bool.not_eq_true'] at h1
          exact h1
        have hself : replRuns p rep false (e :: es) = e :: es :=
          ih (noRunB_tail h)
        simp only [replRuns, he, Bool.false_eq_true, if_false] at hself ⊢
        have htl : replRuns p rep false es = es := by
          injection hself
        rw [htl, hdr]
    · have hd' : p d = false := by simpa using hd
      simp only [replRuns, hd', Bool.false_eq_true, if_false]
      rw [ih (noRunB_tail h)]

/-- `dropWhile` is the identity when no element satisfies the test. -/
theorem dropWhile_eq_self_of_not {q : Char → Bool} {l : List Char}
    (h : ∀ c ∈ l, q c = false) : l.dropWhile q = l := by
  cases l with
  | nil => rfl
  | cons d cs => simp [List.dropWhile, h d (List.mem_cons_self _ _)]

/-- JavaScript `trim` is the identity on whitespace-free strings. -/
theorem jsTrimChars_eq_self {l : List Char}
    (h : ∀ c ∈ l, isJsSpaceChar c = false) : jsTrimChars l = l := by
  unfold jsTrimChars
  rw [dropWhile_eq_self_of_not h,
    dropWhile_eq_self_of_not (fun c hc => h c (List.mem_reverse.mp hc)),
    List.reverse_reverse]

/-- `map` is the identity when the function fixes every element. -/
theorem map_eq_self_of_fix {f : Char → Char} :
    ∀ (l : List Char), (∀ c ∈ l, f c = c) → l.map f = l := by
  intro l
  induction l with
  | nil => intro _; rfl
  | cons d cs ih =>
    intro h
    simp only [List.map_cons, List.cons.injEq]
    exact ⟨h d (List.mem_cons_self _ _),
      ih (fun c hc => h c (List.mem_cons_of_mem _ hc))⟩

/-- Case analysis of the slug-character class. -/
theorem slugChar_cases {c : Char} (h : slugChar c = true) :
    ('a' ≤ c ∧ c ≤ 'z') ∨ ('0' ≤ c ∧ c ≤ '9') ∨ c = '-' := by
  simpa only [slugChar, isAsciiLower, isAsciiDigit, Bool.or_eq_true,
    Bool.and_eq_true, decide_eq_true_eq, beq_iff_eq, or_assoc] using h

/-- ASCII lowering fixes slug characters. -/
theorem jsToLower_fix {c : Char} (h : slugChar c = true) : jsToLower c = c := by
  have hA : ('A' ≤ c && c ≤ 'Z') = false := by
    by_cases hx : ('A' ≤ c && c ≤ 'Z') = true
    · exfalso
      rw [Bool.and_eq_true] at hx
      simp only [decide_eq_true_eq] at hx
      rcases slugChar_cases h with ⟨h1, _⟩ | ⟨_, h2⟩ | rfl
      · exact absurd (le_trans h1 hx.2) (by decide)
      · exact absurd (le_trans hx.1 h2) (by decide)
      · exact absurd hx.1 (by decide)
    · simpa using hx
  simp [jsToLower, hA]

/-- Slug characters survive the keep filter. -/
theorem slugChar_keep {c : Char} (h : slugChar c = true) :
    keepSlugChar c = true := by
  simp only [slugChar, Bool.or_eq_true, or_assoc] at h
  simp only [keepSlugChar, Bool.or_eq_true, or_assoc]
  rcases h with h | h | h
  · exact Or.inl h
  · exact Or.inr (Or.inl h)
  · exact Or.inr (Or.inr (Or.inr h))

/-- Slug characters are not whitespace. -/
theorem slugChar_not_space {c : Char} (h : slugChar c = true) :
    isJsSpaceChar c = false := by
  by_cases hx : isJsSpaceChar c = true
  · exfalso
    simp only [isJsSpaceChar, Bool.or_eq_true, Bool.and_eq_true, beq_iff_eq,
      decide_eq_true_eq, or_assoc] at hx
    rcases slugChar_cases h with ⟨h1, h2⟩ | ⟨h1, h2⟩ | rfl
    · rcases hx with rfl|rfl|rfl|rfl|rfl|rfl|rfl|rfl|⟨hr1,hr2⟩|rfl|rfl|rfl|rfl|rfl|rfl
      all_goals first
        | exact absurd h1 (by decide)
        | exact absurd h2 (by decide)
        | exact absurd (le_trans hr1 h2) (by decide)
    · rcases hx with rfl|rfl|rfl|rfl|rfl|rfl|rfl|rfl|⟨hr1,hr2⟩|rfl|rfl|rfl|rfl|rfl|rfl
      all_goals first
        | exact absurd h1 (by decide)
        | exact absurd h2 (by decide)
        | exact absurd (le_trans hr1 h2) (by decide)
    · exact absurd hx (by decide)
  · simpa using hx

/-- A kept, non-whitespace character is a slug character. -/
theorem keep_not_space_slugChar {c : Char} (hk : keepSlugChar c = true)
    (hs : isJsSpaceChar c = false) : slugChar c = true := by
  simp only [keepSlugChar, Bool.or_eq_true, or_assoc] at hk
  simp only [slugChar, Bool.or_eq_true, or_assoc]
  rcases hk with h | h | h | h
  · exact Or.inl h
  · exact Or.inr (Or.inl h)
  · rw [hs] at h; exact absurd h (by decide)
  · exact Or.inr (Or.inr h)

/-- Every derived slug consists of slug characters and has no run of two
or more hyphens. -/
theorem slugify_invariants (s : String) :
    (∀ c ∈ (slugify s).data, slugChar c = true) ∧
    noRunB (fun c => c == '-') (slugify s).data = true := by
  have hl2c : ∀ c ∈ replRuns isJsSpaceChar '-' false
      ((s.data.map jsToLower).filter keepSlugChar), slugChar c = true := by
    intro c hc
    rcases mem_replRuns _ hc with rfl | ⟨hm, hns⟩
    · decide
    · exact keep_not_space_slugChar (List.of_mem_filter hm) hns
  have hl3c : ∀ c ∈ replRuns (fun c => c == '-') '-' false
      (replRuns isJsSpaceChar '-' false
        ((s.data.map jsToLower).filter keepSlugChar)), slugChar c = true := by
    intro c hc
    rcases mem_replRuns _ hc with rfl | ⟨hm, _⟩
    · decide
    · exact hl2c c hm
  have hnos : ∀ c ∈ replRuns (fun c => c == '-') '-' false
      (replRuns isJsSpaceChar '-' false
        ((s.data.map jsToLower).filter keepSlugChar)),
      isJsSpaceChar c = false :=
    fun c hc => slugChar_not_space (hl3c c hc)
  have hdata : (slugify s).data = replRuns (fun c => c == '-') '-' false
      (replRuns isJsSpaceChar '-' false
        ((s.data.map jsToLower).filter keepSlugChar)) := by
    rw [slugify_data s, jsTrimChars_eq_self hnos]
  rw [hdata]
  exact ⟨hl3c, noRunB_replRuns _ false⟩

/-- `slugify` fixes any string of slug characters without hyphen runs. -/
theorem slugify_fix {t : String}
    (hchars : ∀ c ∈ t.data, slugChar c = true)
    (hnorun : noRunB (fun c => c == '-') t.data = true) : slugify t = t := by
  have hnospace : ∀ c ∈ t.data, isJsSpaceChar c = false :=
    fun c hc => slugChar_not_space (hchars c hc)
  have hmap : t.data.map jsToLower = t.data :=
    map_eq_self_of_fix _ (fun c hc => jsToLower_fix (hchars c hc))
  have hfilter : t.data.filter keepSlugChar = t.data :=
    List.filter_eq_self.mpr (fun c hc => slugChar_keep (hchars c hc))
  have hsp : replRuns isJsSpaceChar '-' false t.data = t.data :=
    replRuns_eq_self _ false hnospace
  have hhy : replRuns (fun c => c == '-') '-' false t.data = t.data :=
    replRuns_id_of_noRun (fun c h => by simpa [beq_iff_eq] using h) _ hnorun
  have htrim : jsTrimChars t.data = t.data := jsTrimChars_eq_self hnospace
  apply String.ext
  rw [slugify_data t, hmap, hfilter, hsp, hhy, htrim]

/-! ## Claim theorems -/

/-- C1: the spec asserts that every slug derived from a typed title has
only lowercase letters, digits and hyphens, no leading or trailing hyphen,
and no hyphen runs. The code's final `.trim('-')` is JavaScript `trim`,
which ignores its argument and strips only whitespace — by that point the
string has none — so leading and trailing hyphens survive: typing the
title `" hello "` into the pristine form derives the slug `"-hello-"`,
which starts and ends with a hyphen. -/
theorem slug_derivation_trim_noop :
    (handleInputChange initialFormData (.text .title " hello ")).slug =
      "-hello-" ∧
    claimSlugOk "-hello-" = false :=
  ⟨rfl, rfl⟩

/-- C2: the spec asserts that after any direct slug input (including a
later clear back to empty) no title edit may change the slug again. The
code guards the derivation with the empty-check `!formData.slug`, not a
touched flag: in the session that types `"my-slug"` into the slug field,
clears it, and then types `"hello"` into the title, the slug is empty
before the title edit and is overwritten to `"hello"` by it. -/
theorem slug_rederived_after_user_clear :
    (runSession [.text .slug "my-slug", .text .slug ""]).slug = "" ∧
    (runSession [.text .slug "my-slug", .text .slug "",
      .text .title "hello"]).slug = "hello" :=
  ⟨rfl, rfl⟩

/-- C3 counterexample: with the pages fetch rejecting and the other three
resolving with non-empty collections (1, 2 and 3 items), the claim wants
non-zero counts for blog posts, sections and content blocks; the
`Promise.all` join rejects as a whole, the single catch logs, and all
four counts render as the seeded zeros. -/
theorem dashboard_one_failure_zeroes_all :
    loadDashboardData (α := Nat) (.error ⟨none⟩) (.ok (.bare [1]))
      (.ok (.bare [1, 2])) (.ok (.bare [1, 2, 3])) =
    ({ pages := 0, blogPosts := 0, sections := 0, contentBlocks := 0 },
      true) :=
  rfl

/-- C3 (amended): the dashboard's four stat fetches are joined
all-or-nothing: if any of the four rejects, the failure is logged and all
four counts render as the seeded zeros; only when all four resolve are the
per-response counts rendered. -/
theorem loadDashboardData_all_or_nothing (α : Type)
    (p b s c : Except ApiError (ApiData α)) :
    ((∃ e, p = .error e) ∨ (∃ e, b = .error e) ∨ (∃ e, s = .error e) ∨
        (∃ e, c = .error e) →
      loadDashboardData p b s c = (initialStats, true)) ∧
    (∀ dp db ds dc, p = .ok dp → b = .ok db → s = .ok ds → c = .ok dc →
      loadDashboardData p b s c =
        ({ pages := statCount dp, blogPosts := statCount db
           sections := statCount ds, contentBlocks := statCount dc },
          false)) := by
  constructor
  · intro h
    rcases p with e | dp
    · rfl
    · rcases b with e | db
      · rfl
      · rcases s with e | ds
        · rfl
        · rcases c with e | dc
          · rfl
          · exfalso
            rcases h with ⟨e, he⟩ | ⟨e, he⟩ | ⟨e, he⟩ | ⟨e, he⟩ <;>
              exact Except.noConfusion he
  · intro dp db ds dc hp hb hs hc
    subst hp; subst hb; subst hs; subst hc
    rfl

/-- C3 witness: the amended characterization at concrete inputs — a run
with one rejection yields the all-zero stats with the failure logged, and
an all-success run yields the four per-response counts. -/
theorem loadDashboardData_all_or_nothing_witness :
    loadDashboardData (α := Nat) (.error ⟨some "boom"⟩) (.ok (.bare [7]))
      (.ok (.envelope [7, 8])) (.ok (.bare [9])) = (initialStats, true) ∧
    loadDashboardData (α := Nat) (.ok (.bare [7])) (.ok (.bare [7, 8]))
      (.ok (.envelope [1, 2, 3])) (.ok .other) =
      ({ pages := 1, blogPosts := 2, sections := 3, contentBlocks := 0 },
        false) :=
  ⟨(loadDashboardData_all_or_nothing Nat _ _ _ _).1
      (Or.inl ⟨⟨some "boom"⟩, rfl⟩),
   (loadDashboardData_all_or_nothing Nat _ _ _ _).2 _ _ _ _ rfl rfl rfl rfl⟩

/-- C4: the spec asserts the temporary preview resource is released
exactly once on every exit path of an upload attempt. The code revokes
the object URL only on the success path; on an attempt whose backend call
rejects, the URL created for the attempt (`"blob:2"`) is never revoked —
it leaks. -/
theorem upload_failure_leaks_preview :
    (onDrop 5242880 none ⟨false, none, none⟩ [⟨"b.png", 2048, "image/png"⟩]
      "blob:2" (.error ⟨none⟩)).created = ["blob:2"] ∧
    (onDrop 5242880 none ⟨false, none, none⟩ [⟨"b.png", 2048, "image/png"⟩]
      "blob:2" (.error ⟨none⟩)).revoked = [] :=
  ⟨rfl, rfl⟩

/-- C5 counterexample: on a successful upload the control emits exactly
the backend locator `"uploads/a.png"` to its parent, but the displayed
preview is left as the temporary object URL `"blob:1"` — it is never
replaced by the backend-confirmed reference, contradicting the claim's
replacement conjunct. -/
theorem upload_success_preview_not_replaced :
    (onDrop 5242880 none ⟨false, none, none⟩ [⟨"a.png", 100, "image/png"⟩]
      "blob:1" (.ok ⟨"uploads/a.png", "http://x/a.png"⟩)).emitted =
      some ("uploads/a.png", some ⟨"uploads/a.png", "http://x/a.png"⟩) ∧
    (onDrop 5242880 none ⟨false, none, none⟩ [⟨"a.png", 100, "image/png"⟩]
      "blob:1" (.ok ⟨"uploads/a.png", "http://x/a.png"⟩)).state.preview =
      some "blob:1" ∧
    ("blob:1" : String) ≠ "uploads/a.png" :=
  ⟨rfl, rfl, by decide⟩

/-- C5 (amended): for every upload attempt whose backend call succeeds,
the control notifies its parent with a reference exactly equal to the
backend descriptor's `file` field (passing the full descriptor alongside)
and releases the temporary preview resource of the attempt exactly once,
but the displayed preview keeps the temporary preview URL rather than
being replaced by the backend-confirmed reference. -/
theorem onDrop_success_spec (maxSize : Nat) (currentImage : Option String)
    (s : UploadState) (acceptedFiles : List UFile) (file : UFile)
    (previewUrl : String) (d : MediaData)
    (hf : acceptedFiles.head? = some file)
    (hsize : ¬ file.size > maxSize)
    (htype : startsWithCh file.type.data "image/".data = true) :
    onDrop maxSize currentImage s acceptedFiles previewUrl (.ok d) =
      { state := { uploading := false, preview := some previewUrl
                   error := none }
        requests := 1, created := [previewUrl], revoked := [previewUrl]
        emitted := some (d.file, some d), enteredUploading := true } := by
  simp only [onDrop, hf, htype, not_true, if_neg hsize, if_false,
    not_false_iff, if_true]

/-- C5 witness: the amended success contract at a concrete attempt. -/
theorem onDrop_success_spec_witness :
    onDrop 5242880 (some "old.png") ⟨false, some "old.png", none⟩
      [⟨"c.png", 4096, "image/jpeg"⟩] "blob:9"
      (.ok ⟨"uploads/c.jpg", "http://x/c.jpg"⟩) =
      { state := { uploading := false, preview := some "blob:9"
                   error := none }
        requests := 1, created := ["blob:9"], revoked := ["blob:9"]
        emitted := some ("uploads/c.jpg",
          some ⟨"uploads/c.jpg", "http://x/c.jpg"⟩)
        enteredUploading := true } :=
  onDrop_success_spec 5242880 (some "old.png") ⟨false, some "old.png", none⟩
    [⟨"c.png", 4096, "image/jpeg"⟩] ⟨"c.png", 4096, "image/jpeg"⟩
    "blob:9" ⟨"uploads/c.jpg", "http://x/c.jpg"⟩ rfl (by decide) (by decide)

/-- C6: a selected file strictly larger than `maxSize` is rejected before
any effect: no network request, no preview creation, no entry into the
uploading state, no parent notification; the only change is the inline
error message, which embeds the configured limit rounded to megabytes
(the default 5242880 yields `"5MB"`). -/
theorem onDrop_oversize_reject (maxSize : Nat) (currentImage : Option String)
    (s : UploadState) (acceptedFiles : List UFile) (file : UFile)
    (previewUrl : String) (backend : Except ApiError MediaData)
    (hf : acceptedFiles.head? = some file)
    (hsize : file.size > maxSize) :
    onDrop maxSize currentImage s acceptedFiles previewUrl backend =
      { state := { s with error := some (sizeErrorMsg maxSize) }
        requests := 0, created := [], revoked := [], emitted := none
        enteredUploading := false } ∧
    (∃ pre, sizeErrorMsg maxSize =
      pre ++ toString (roundMB maxSize) ++ "MB") := by
  refine ⟨?_, "File size must be less than ", rfl⟩
  simp only [onDrop, hf, hsize, if_true]

/-- C6 witness: the rejection contract at the default limit with a file of
size `maxSize + 1`, whose message is `"File size must be less than 5MB"`. -/
theorem onDrop_oversize_reject_witness :
    onDrop 5242880 none ⟨false, none, none⟩
      [⟨"big.png", 5242881, "image/png"⟩] "blob:3" (.error ⟨none⟩) =
      { state := ⟨false, none, some (sizeErrorMsg 5242880)⟩
        requests := 0, created := [], revoked := [], emitted := none
        enteredUploading := false } ∧
    sizeErrorMsg 5242880 = "File size must be less than 5MB" :=
  ⟨(onDrop_oversize_reject 5242880 none ⟨false, none, none⟩
      [⟨"big.png", 5242881, "image/png"⟩] ⟨"big.png", 5242881, "image/png"⟩
      "blob:3" (.error ⟨none⟩) rfl (by decide)).1,
   rfl⟩

/-- C7: the delete handler sends nothing and changes nothing without
confirmation; after confirmation and backend acceptance the resulting
list contains exactly the previous pages whose identity differs from the
deleted one (removal by identity, no refetch on any path); after backend
rejection the list is returned unchanged and the error is only logged. -/
theorem handleDeletePage_spec (confirmed : Bool)
    (backend : Except ApiError Unit) (pages : List Page) (id : Nat) :
    (confirmed = false →
      handleDeletePage confirmed backend pages id =
        { pages := pages, deleteSent := false, refetched := false
          logged := false }) ∧
    (confirmed = true → backend = .ok () →
      (handleDeletePage confirmed backend pages id).deleteSent = true ∧
      (handleDeletePage confirmed backend pages id).refetched = false ∧
      (handleDeletePage confirmed backend pages id).logged = false ∧
      ∀ q : Page, q ∈ (handleDeletePage confirmed backend pages id).pages ↔
        (q ∈ pages ∧ q.id ≠ id)) ∧
    (∀ e, confirmed = true → backend = .error e →
      handleDeletePage confirmed backend pages id =
        { pages := pages, deleteSent := true, refetched := false
          logged := true }) := by
  refine ⟨?_, ?_, ?_⟩
  · intro h; subst h; rfl
  · intro h hb; subst h; subst hb
    refine ⟨rfl, rfl, rfl, ?_⟩
    intro q
    simp [handleDeletePage, List.mem_filter]
  · intro e h hb; subst h; subst hb; rfl

/-- C7 witness: the three branches at concrete inputs — an unconfirmed
delete is a no-op with no request, a confirmed accepted delete of id 1
removes exactly that page, and a confirmed rejected delete leaves the two
pages untouched with the error logged. -/
theorem handleDeletePage_spec_witness :
    handleDeletePage false (.ok ()) [⟨1, 10, "a"⟩, ⟨2, 11, "b"⟩] 1 =
      { pages := [⟨1, 10, "a"⟩, ⟨2, 11, "b"⟩], deleteSent := false
        refetched := false, logged := false } ∧
    ((⟨2, 11, "b"⟩ : Page) ∈
      (handleDeletePage true (.ok ()) [⟨1, 10, "a"⟩, ⟨2, 11, "b"⟩] 1).pages ∧
     ¬ (⟨1, 10, "a"⟩ : Page) ∈
      (handleDeletePage true (.ok ()) [⟨1, 10, "a"⟩, ⟨2, 11, "b"⟩] 1).pages) ∧
    handleDeletePage true (.error ⟨some "conflict"⟩)
      [⟨1, 10, "a"⟩, ⟨2, 11, "b"⟩] 1 =
      { pages := [⟨1, 10, "a"⟩, ⟨2, 11, "b"⟩], deleteSent := true
        refetched := false, logged := true } :=
  ⟨(handleDeletePage_spec false (.ok ()) [⟨1, 10, "a"⟩, ⟨2, 11, "b"⟩] 1).1
      rfl,
   ⟨(((handleDeletePage_spec true (.ok ()) [⟨1, 10, "a"⟩, ⟨2, 11, "b"⟩]
        1).2.1 rfl rfl).2.2.2 ⟨2, 11, "b"⟩).mpr ⟨by decide, by decide⟩,
    fun hmem => absurd ((((handleDeletePage_spec true (.ok ())
        [⟨1, 10, "a"⟩, ⟨2, 11, "b"⟩] 1).2.1 rfl rfl).2.2.2
        ⟨1, 10, "a"⟩).mp hmem).2 (by decide)⟩,
   (handleDeletePage_spec true (.error ⟨some "conflict"⟩)
      [⟨1, 10, "a"⟩, ⟨2, 11, "b"⟩] 1).2.2 ⟨some "conflict"⟩ rfl rfl⟩

/-- C8: the dashboard's per-response count tolerates both envelope
shapes: an envelope with a nested `results` list counts that list's
length, a bare collection counts its own length, and anything else counts
zero. -/
theorem statCount_spec (α : Type) (rs items : List α) :
    statCount (.envelope rs) = rs.length ∧
    statCount (.bare items) = items.length ∧
    statCount (α := α) .other = 0 := by
  refine ⟨?_, ?_, rfl⟩
  · by_cases h : rs.length = 0 <;>
      simp [statCount, resultsLen?, dataLen?, h]
  · by_cases h : items.length = 0 <;>
      simp [statCount, resultsLen?, dataLen?, h]

/-- C9: the section filter is a pure function of the fetched pages and
the selected value, issuing zero network requests on every render; the
sentinel `"all"` yields the whole list unchanged; and a selection
matching no page yields the empty list, which renders the explicit
`"No pages found in this section."` empty state rather than an error. -/
theorem pages_filter_spec (pages : List Page) (sel : String)
    (hsel : sel ≠ "all")
    (hnone : ∀ p ∈ pages, toString p.section_id ≠ sel) :
    filteredPages "all" pages = pages ∧
    (renderPages sel pages).2 = 0 ∧
    (renderPages "all" pages).2 = 0 ∧
    filteredPages sel pages = [] ∧
    renderPages sel pages =
      (.emptyState "No pages found in this section.", 0) := by
  have hempty : filteredPages sel pages = [] := by
    rw [filteredPages, if_neg hsel]
    exact List.filter_eq_nil_iff.mpr
      (fun p hp => by simpa using hnone p hp)
  have hreq : ∀ (sel' : String), (renderPages sel' pages).2 = 0 := by
    intro sel'
    by_cases h : (filteredPages sel' pages).length = 0 <;>
      simp [renderPages, h]
  refine ⟨by simp [filteredPages], hreq sel, hreq "all", hempty, ?_⟩
  simp [renderPages, hempty, hsel]

/-- C9 witness: filtering the fetched one-page list by section `"7"`
(which matches no page) renders the explicit empty state with zero
requests, and the sentinel `"all"` returns the list unchanged. -/
theorem pages_filter_spec_witness :
    filteredPages "all" [⟨1, 10, "a"⟩] = [⟨1, 10, "a"⟩] ∧
    filteredPages "7" [⟨1, 10, "a"⟩] = [] ∧
    renderPages "7" [⟨1, 10, "a"⟩] =
      (.emptyState "No pages found in this section.", 0) :=
  ⟨(pages_filter_spec [⟨1, 10, "a"⟩] "7" (by decide)
      (by intro p hp; fin_cases hp; decide)).1,
   (pages_filter_spec [⟨1, 10, "a"⟩] "7" (by decide)
      (by intro p hp; fin_cases hp; decide)).2.2.2.1,
   (pages_filter_spec [⟨1, 10, "a"⟩] "7" (by decide)
      (by intro p hp; fin_cases hp; decide)).2.2.2.2⟩

/-- C10: the slug derivation is idempotent — every derived slug is a
fixed point of the derivation: its characters are all lowercase letters,
digits or hyphens (so lowering, filtering, whitespace collapsing and
trimming fix it) and it has no hyphen runs (so hyphen collapsing fixes
it). -/
theorem slugify_idempotent (s : String) :
    slugify (slugify s) = slugify s :=
  slugify_fix (slugify_invariants s).1 (slugify_invariants s).2

end CMS
